import Mathlib

set_option autoImplicit false

/-!
Verification development for the django-admin-mcp engine.

The definitions below are a shallow embedding of the source files
src/django_admin_mcp/models.py, src/django_admin_mcp/handlers/base.py,
src/django_admin_mcp/handlers/crud.py, src/django_admin_mcp/handlers/actions.py
and src/django_admin_mcp/handlers/errors.py.  External collaborators
(the Django ORM, Django forms, the hash primitive, the str rendering of a
model instance) are passed in as explicit function parameters, exactly at
the call sites where the source delegates to them.  Machine-level details
that the claims do not touch (JSON rendering of payloads) are represented
structurally.
-/

namespace DjangoAdminMcp

/-! ### Credential store: class MCPToken in src/django_admin_mcp/models.py

Datetimes are modelled as integers (seconds); timedelta(days=90) is
90 * 86400 seconds.  The fields kept are the ones the claims touch:
the legacy plaintext column token, the hashed column token_hash, the salt,
the active flag, the primary key (none before the first save), expires_at,
the private instance attribute plaintext_token (not a database column) and
the private flag expires_at_explicit recording whether the expires_at kwarg
was passed to the constructor. -/

structure MCPToken where
  name : String
  token : Option String
  token_hash : Option String
  salt : Option String
  is_active : Bool
  pk : Option Nat
  expires_at : Option Int
  expires_at_explicit : Bool
  plaintext_token : Option String
deriving DecidableEq

/-- Construction of a fresh in-memory token, mirroring MCPToken.init:
the flag expires_at_explicit is set when the expires_at kwarg is present,
plaintext_token starts empty, and every generated column starts empty.
Django leaves expires_at at its field default (null) when the kwarg is
absent. -/
def MCPToken.new (name : String) (expiresProvided : Bool) (expiresVal : Option Int) :
    MCPToken :=
  { name := name
    token := none
    token_hash := none
    salt := none
    is_active := true
    pk := none
    expires_at := if expiresProvided then expiresVal else none
    expires_at_explicit := expiresProvided
    plaintext_token := none }

/-- timedelta(days=90), in seconds. -/
def ninetyDays : Int := 90 * 86400

/-- Mirrors MCPToken.should_set_default_expiry (source name has a leading
underscore): new row, expires_at not explicitly passed, and still null. -/
def MCPToken.should_set_default_expiry (tk : MCPToken) : Bool :=
  tk.pk.isNone && !tk.expires_at_explicit && tk.expires_at.isNone

/-- Mirrors MCPToken.save.  The secret generator (secrets.token_urlsafe) is
modelled by the parameters newToken and newSalt, the hash primitive
(sha256 of salt concatenated with token, hex digest) by hashToken, the
database insert by freshPk.  When token_hash is empty a new secret is
minted, salted, hashed, the plaintext is parked on the instance attribute
and the legacy column token is cleared; then the default expiry is applied
when due; finally the row is persisted (pk assigned on first insert). -/
def MCPToken.save (hashToken : String → String → String) (newToken newSalt : String)
    (now : Int) (freshPk : Nat) (tk : MCPToken) : MCPToken :=
  let tk1 :=
    if tk.token_hash.isNone then
      { tk with
          salt := some newSalt
          token_hash := some (hashToken newToken newSalt)
          plaintext_token := some newToken
          token := none }
    else tk
  let tk2 :=
    if tk1.should_set_default_expiry then
      { tk1 with expires_at := some (now + ninetyDays) }
    else tk1
  { tk2 with pk := some (tk2.pk.getD freshPk) }

/-- Mirrors MCPToken.get_plaintext_token: returns the parked plaintext and
clears it, so a second retrieval yields nothing. -/
def MCPToken.get_plaintext_token (tk : MCPToken) : Option String × MCPToken :=
  (tk.plaintext_token, { tk with plaintext_token := none })

/-- Mirrors MCPToken.is_expired at instant now: indefinite tokens never
expire, otherwise expired exactly when now is strictly past expires_at. -/
def MCPToken.is_expired (tk : MCPToken) (now : Int) : Bool :=
  match tk.expires_at with
  | none => false
  | some t => now > t

/-- Mirrors MCPToken.is_valid: active and not expired. -/
def MCPToken.is_valid (tk : MCPToken) (now : Int) : Bool :=
  tk.is_active && !(tk.is_expired now)

/-- Concrete token sitting exactly at its expiry instant, used to test the
boundary behaviour of is_valid. -/
def boundaryToken : MCPToken :=
  { name := "t"
    token := none
    token_hash := some "h"
    salt := some "s"
    is_active := true
    pk := some 1
    expires_at := some 5
    expires_at_explicit := true
    plaintext_token := none }

/-! ### Permissions: MCPToken.has_perm and MCPToken.get_all_permissions

Permission strings are modelled as lists of characters so that the split
on the first dot (perm.split with maxsplit 1) can be reasoned about by
recursion.  A stored Permission row carries an app_label (from its content
type) and a codename; the token holds direct permissions and groups, each
group holding permissions. -/

structure Perm where
  app_label : List Char
  codename : List Char
deriving DecidableEq

structure TokenPerms where
  permissions : List Perm
  groups : List (List Perm)
deriving DecidableEq

/-- Python split on the first dot: returns the part before the first dot
and the rest, or nothing when the string has no dot. -/
def splitDot1 : List Char → Option (List Char × List Char)
  | [] => none
  | c :: rest =>
    if c = '.' then some ([], rest)
    else
      match splitDot1 rest with
      | some p => some (c :: p.1, p.2)
      | none => none

/-- Mirrors MCPToken.has_perm on a string argument: parse app_label and
codename at the first dot (no dot means the permission cannot be checked
and access is denied); grant when a matching direct permission exists or
some group holds a matching permission; otherwise deny. -/
def TokenPerms.has_perm (tk : TokenPerms) (perm : List Char) : Bool :=
  match splitDot1 perm with
  | none => false
  | some p =>
    (tk.permissions.any fun q => q.app_label == p.1 && q.codename == p.2) ||
    (tk.groups.any fun g => g.any fun q => q.app_label == p.1 && q.codename == p.2)

/-- The string rendering app_label dot codename used by
MCPToken.get_all_permissions. -/
def Perm.permString (p : Perm) : List Char :=
  p.app_label ++ '.' :: p.codename

/-- Mirrors MCPToken.get_all_permissions: the strings of the direct
permissions followed by the strings of every group permission.  The source
collects them into a Python set; membership in this list is membership in
that set. -/
def TokenPerms.get_all_permissions (tk : TokenPerms) : List (List Char) :=
  (tk.permissions ++ tk.groups.flatten).map Perm.permString

/-- Concrete token holding a single permission only through a group, used
to witness that a group-only grant suffices. -/
def groupOnlyToken : TokenPerms :=
  { permissions := []
    groups := [[{ app_label := "blog".toList, codename := "change_article".toList }]] }

/-! ### Field values, Python dicts, rows and the database state

The execution engine manipulates JSON-like field values.  A Python dict is
modelled as an association list built only through dictSet, which updates
an existing key in place or appends a new one, exactly like a dict
assignment.  A database row is a primary key plus a field dict; the
database state is the row list plus the append-only audit table
(django.contrib.admin.models.LogEntry). -/

inductive Value
  | vInt : Int → Value
  | vStr : String → Value
  | vBool : Bool → Value
  | vNull : Value
deriving DecidableEq

abbrev Data := List (String × Value)

/-- Python dict membership test. -/
def dictHas (d : Data) (k : String) : Bool :=
  d.any fun kv => kv.1 == k

/-- Python dict lookup: the entry written for the key. -/
def dictGet (d : Data) (k : String) : Option Value :=
  (d.find? fun kv => kv.1 == k).map Prod.snd

/-- Python dict assignment: overwrite in place, or append a new key. -/
def dictSet (d : Data) (k : String) (v : Value) : Data :=
  if dictHas d k then d.map fun kv => if kv.1 == k then (k, v) else kv
  else d ++ [(k, v)]

/-- Python dict merge of b over a, as in a Python double-star merge. -/
def mergeDict (a b : Data) : Data :=
  b.foldl (fun acc kv => dictSet acc kv.1 kv.2) a

/-- Lookup in a string-to-string mapping (the fk_fields dict of
normalize_fk_fields). -/
def lookupStr (m : List (String × String)) (k : String) : Option String :=
  (m.find? fun kv => kv.1 == k).map Prod.snd

/-- Mirrors normalize_fk_fields in src/django_admin_mcp/handlers/base.py:
fk_fields maps the column-style attname of each foreign key to its logical
field name (pairs where attname differs from name); a fresh dict is built,
rewriting every attname key to the logical name and copying every other
key unchanged. -/
def normalize_fk_fields (fk_fields : List (String × String)) (data : Data) : Data :=
  data.foldl
    (fun acc kv =>
      match lookupStr fk_fields kv.1 with
      | some nm => dictSet acc nm kv.2
      | none => dictSet acc kv.1 kv.2)
    []

structure Row where
  pk : Nat
  flds : Data
deriving DecidableEq

/-- One django.contrib.admin LogEntry row, as written by log_action. -/
structure AuditEntry where
  user_id : Nat
  object_id : String
  object_repr : String
  action_flag : Nat
  change_message : String
deriving DecidableEq

structure DB where
  rows : List Row
  audit : List AuditEntry
deriving DecidableEq

/-- Primary-key fetch, model.objects.get. -/
def DB.getRow (db : DB) (pk : Nat) : Option Row :=
  db.rows.find? fun r => r.pk == pk

/-- Persisting an instance, obj.save: replace the row with this primary
key, or insert it. -/
def DB.saveRow (db : DB) (row : Row) : DB :=
  if db.rows.any fun r => r.pk == row.pk then
    { db with rows := db.rows.map fun r => if r.pk == row.pk then row else r }
  else { db with rows := db.rows ++ [row] }

/-- Physical delete of a row, obj.delete. -/
def DB.deleteRow (db : DB) (pk : Nat) : DB :=
  { db with rows := db.rows.filter fun r => !(r.pk == pk) }

def ADDITION : Nat := 1
def CHANGE : Nat := 2
def DELETION : Nat := 3

/-- Mirrors log_action in src/django_admin_mcp/handlers/crud.py (and its
copy in actions.py, source name with a leading underscore): without a user
nothing is logged; otherwise one LogEntry row is appended, with the object
description truncated to 200 characters. -/
def log_action (user : Option Nat) (objPk : Nat) (objRepr : String)
    (action_flag : Nat) (change_message : String) (db : DB) : DB :=
  match user with
  | none => db
  | some uid =>
    { db with
        audit := db.audit ++
          [{ user_id := uid
             object_id := toString objPk
             object_repr := objRepr.take 200
             action_flag := action_flag
             change_message := change_message }] }

/-! ### Single-item CRUD handlers, src/django_admin_mcp/handlers/crud.py

The permission gate outcome is the boolean parameter permitted; the Django
ORM insert (model.objects.create) is the parameter createFn, which either
yields the updated database and the new row or fails with the raw driver
message of the exception; str of an instance is reprOf; json.dumps of the
request data is dumps.  A handler returns the final database state and a
structured response; the error constructor carries the message and the
optional machine-readable code field of the JSON payload. -/

inductive CrudResp
  | success (id : Option Nat) (obj : Data)
  | error (msg : String) (code : Option String)
deriving DecidableEq

def CrudResp.isError : CrudResp → Bool
  | .error _ _ => true
  | .success _ _ => false

/-- Mirrors handle_create in crud.py: after the permission gate, the data
dict is handed directly to the ORM insert; on success one ADDITION audit
row is logged and the new id with the serialized instance is returned; any
exception is caught and its raw string becomes the error payload, with no
code field. -/
def handle_create (permitted : Bool)
    (createFn : DB → Data → Except String (DB × Row))
    (reprOf : Row → String) (dumps : Data → String) (user : Option Nat)
    (db : DB) (data : Data) : DB × CrudResp :=
  if !permitted then
    (db, .error "Permission denied: cannot add" (some "permission_denied"))
  else
    match createFn db data with
    | .error e => (db, .error e none)
    | .ok (db1, obj) =>
      let db2 := log_action user obj.pk (reprOf obj)
        ADDITION ("Created via MCP: " ++ dumps data) db1
      (db2, .success (some obj.pk) obj.flds)

/-- Admin configuration consumed by handle_update: the declared read-only
field names. -/
structure AdminCfg where
  readonly_fields : List String
deriving DecidableEq

/-- The inlines argument of handle_update: child updates grouped per child
model name.  Its interpretation (the update_inlines function of crud.py)
is passed as a parameter where needed. -/
abbrev InlinesData := List (String × List Data)

structure UpdateArgs where
  id : Option Nat
  data : Data
  inlines : InlinesData
deriving DecidableEq

/-- The setattr loop of update_object: write each requested field on the
instance, in request order. -/
def set_fields (row : Row) (data : Data) : Row :=
  { row with flds := data.foldl (fun acc kv => dictSet acc kv.1 kv.2) row.flds }

/-- Mirrors the inner update_object of handle_update in crud.py: fetch by
primary key (a missing row surfaces as the not-found branch), apply the
requested fields, persist, run the inline cascade when inline data and an
admin are present, then log one CHANGE audit row.  Returns the new
database state and the saved instance. -/
def update_object (db : DB) (objId : Nat) (data : Data)
    (updateInlines : DB → Row → InlinesData → DB) (admin : Option AdminCfg)
    (inlines_data : InlinesData) (reprOf : Row → String) (user : Option Nat)
    (dumps : Data → String) : Option (DB × Row) :=
  match db.getRow objId with
  | none => none
  | some obj =>
    let obj1 := set_fields obj data
    let db1 := db.saveRow obj1
    let db2 :=
      if !inlines_data.isEmpty && admin.isSome then updateInlines db1 obj1 inlines_data
      else db1
    let parts :=
      (if !data.isEmpty then ["Changed via MCP: " ++ dumps data] else []) ++
      (if !inlines_data.isEmpty then ["Updated inlines"] else [])
    let msg := if parts.isEmpty then "Updated via MCP" else String.intercalate " | " parts
    let db3 := log_action user objId (reprOf obj1) CHANGE msg db2
    some (db3, obj1)

/-- The readonly_attempted set of handle_update: with an admin configured,
the keys of data that the admin lists as read only; without one, the
read-only check is skipped. -/
def readonlyAttempted (admin : Option AdminCfg) (data : Data) : Data :=
  match admin with
  | some a => data.filter (fun (kv : String × Value) => a.readonly_fields.contains kv.1)
  | none => []

/-- Mirrors handle_update in crud.py: permission gate, required id, then
the mass-assignment guard (every key of data must be a declared model
field), then the read-only guard (when an admin is configured, no key may
be read only); only then is update_object run.  Each rejection returns a
structured error with the database untouched. -/
def handle_update (permitted : Bool) (valid_fields : List String)
    (admin : Option AdminCfg) (updateInlines : DB → Row → InlinesData → DB)
    (reprOf : Row → String) (user : Option Nat) (dumps : Data → String)
    (db : DB) (args : UpdateArgs) : DB × CrudResp :=
  if !permitted then
    (db, .error "Permission denied: cannot change" (some "permission_denied"))
  else
    match args.id with
    | none => (db, .error "id parameter is required" none)
    | some objId =>
      match args.data.find? (fun kv => !valid_fields.contains kv.1) with
      | some kv => (db, .error ("Invalid field: " ++ kv.1) none)
      | none =>
        if !(readonlyAttempted admin args.data).isEmpty then
          (db, .error ("Cannot update readonly fields: " ++
            String.intercalate ", " ((readonlyAttempted admin args.data).map Prod.fst)) none)
        else
          match update_object db objId args.data updateInlines admin args.inlines
              reprOf user dumps with
          | none => (db, .error "not found" none)
          | some (db1, obj1) => (db1, .success none obj1.flds)

/-- Mirrors the inner delete_object of handle_delete in crud.py: fetch the
instance, render its description, write the DELETION audit row first, and
only then delete the row; the description is returned. -/
def delete_object (db : DB) (objId : Nat) (reprOf : Row → String)
    (user : Option Nat) : Option (DB × String) :=
  match db.getRow objId with
  | none => none
  | some obj =>
    let obj_repr := reprOf obj
    let db1 := log_action user objId obj_repr DELETION "Deleted via MCP" db
    let db2 := db1.deleteRow objId
    some (db2, obj_repr)

/-- Mirrors handle_delete in crud.py around delete_object. -/
def handle_delete (permitted : Bool) (reprOf : Row → String) (user : Option Nat)
    (db : DB) (idArg : Option Nat) : DB × CrudResp :=
  if !permitted then
    (db, .error "Permission denied: cannot delete" (some "permission_denied"))
  else
    match idArg with
    | none => (db, .error "id parameter is required" none)
    | some objId =>
      match delete_object db objId reprOf user with
      | none => (db, .error "not found" none)
      | some (db1, _) => (db1, .success none [])

/-! ### Engine failure mapping, src/django_admin_mcp/handlers/errors.py -/

inductive DbException
  | integrityError (msg : String)
  | operationalError (msg : String)
  | databaseError (msg : String)
  | otherError (msg : String)
deriving DecidableEq

structure ErrorPayload where
  error : String
  code : String
deriving DecidableEq

/-- Mirrors handle_database_error in errors.py: every IntegrityError maps
to the single code integrity_error with a generic message, every
OperationalError and DatabaseError to database_error, anything else to
internal_error.  The low-level message is only logged, never returned. -/
def handle_database_error (e : DbException) : ErrorPayload :=
  match e with
  | .integrityError _ =>
    { error := "A database constraint was violated", code := "integrity_error" }
  | .operationalError _ =>
    { error := "A database error occurred", code := "database_error" }
  | .databaseError _ =>
    { error := "A database error occurred", code := "database_error" }
  | .otherError _ =>
    { error := "An unexpected error occurred", code := "internal_error" }

/-! ### Concrete scenario inputs for the create failure claims -/

/-- A store already holding an author with the unique email. -/
def dupCreateDb : DB :=
  { rows := [{ pk := 1, flds := [("name", .vStr "A"), ("email", .vStr "x@e.com")] }]
    audit := [] }

/-- The raw driver message of the uniqueness violation raised by the
storage engine on the duplicate insert. -/
def dupMsg : String := "UNIQUE constraint failed: tests_author.email"

/-- ORM insert that fails with the uniqueness violation, leaving the store
untouched, as a single failed INSERT does. -/
def failingCreateFn : DB → Data → Except String (DB × Row) :=
  fun _ _ => .error dupMsg

/-- ORM insert probe that reports exactly the keys it was handed, used to
observe which field names reach persistence. -/
def probeCreateFn : DB → Data → Except String (DB × Row) :=
  fun _ d => .error (String.intercalate "," (d.map Prod.fst))

/-- The attname-to-name map of a model with one foreign key author. -/
def authorFkFields : List (String × String) := [("author_id", "author")]

def emptyDB : DB := { rows := [], audit := [] }

/-! ### Bulk operations, src/django_admin_mcp/handlers/actions.py

Each bulk handler walks the item list with enumerate, appending for every
item exactly one entry, either to the success list or to the errors list,
both keyed by the input index.  Form validation (form.is_valid on the
admin form class) is the parameter validate, form.save is the parameter
save (failures carry the safe error message and, being raised inside
transaction.atomic, leave the store as it was), obj.delete is deleteFn
with the same rollback reading since the audit write and the delete share
one atomic block. -/

structure SuccessEntry where
  index : Nat
  id : Nat
  kind : String
deriving DecidableEq

structure ErrorEntry where
  index : Nat
  error : String
deriving DecidableEq

inductive ItemOutcome
  | ok (e : SuccessEntry)
  | err (e : ErrorEntry)
deriving DecidableEq

def ItemOutcome.index : ItemOutcome → Nat
  | .ok e => e.index
  | .err e => e.index

def ItemOutcome.isOk : ItemOutcome → Bool
  | .ok _ => true
  | .err _ => false

/-- The results dict of a bulk handler: the success entries and the error
entries, each in append order. -/
structure BulkResults where
  success : List SuccessEntry
  errors : List ErrorEntry
deriving DecidableEq

/-- Distribute the per-item outcomes over the success and errors lists, in
iteration order, as the appends inside the loop do. -/
def collectResults : List ItemOutcome → BulkResults
  | [] => { success := [], errors := [] }
  | .ok e :: rest =>
    let r := collectResults rest
    { r with success := e :: r.success }
  | .err e :: rest =>
    let r := collectResults rest
    { r with errors := e :: r.errors }

/-- The payload built by bulk_response in actions.py (source name with a
leading underscore). -/
structure BulkResponse where
  operation : String
  total_items : Nat
  success_count : Nat
  error_count : Nat
  results : BulkResults
deriving DecidableEq

def bulk_response (operation : String) (total : Nat) (os : List ItemOutcome) :
    BulkResponse :=
  let results := collectResults os
  { operation := operation
    total_items := total
    success_count := results.success.length
    error_count := results.errors.length
    results := results }

/-- The enumerate loop shared by the three bulk handlers: run the per-item
step on the evolving store, collecting one outcome per item; a step never
aborts the walk. -/
def bulkLoop {α : Type} (step : DB → Nat → α → DB × ItemOutcome) :
    DB → Nat → List α → DB × List ItemOutcome
  | db, _, [] => (db, [])
  | db, i, a :: rest =>
    let r := step db i a
    let rest0 := bulkLoop step r.1 (i + 1) rest
    (rest0.1, r.2 :: rest0.2)

/-- One iteration of handle_bulk_create: normalize the foreign-key names,
validate through the admin form, then save and log inside one transaction;
a validation failure or a save failure records an indexed error and leaves
the store untouched (the failed transaction rolled back). -/
def bulkCreateStep (fk_fields : List (String × String)) (validate : Data → Bool)
    (save : DB → Data → Except String (DB × Row)) (reprOf : Row → String)
    (user : Option Nat) (db : DB) (i : Nat) (item_data : Data) : DB × ItemOutcome :=
  let normalized := normalize_fk_fields fk_fields item_data
  if !validate normalized then
    (db, .err { index := i, error := "Validation failed" })
  else
    match save db normalized with
    | .error e => (db, .err { index := i, error := e })
    | .ok (db1, obj) =>
      let db2 := log_action user obj.pk (reprOf obj) ADDITION "Bulk created via MCP" db1
      (db2, .ok { index := i, id := obj.pk, kind := "created" })

/-- One item of handle_bulk_update: an id plus the fields to change. -/
structure UpdateItem where
  id : Option Nat
  data : Data
deriving DecidableEq

/-- One iteration of handle_bulk_update: require an id, fetch the
instance, normalize the foreign-key names, merge over the current field
values (model_to_dict), validate, then save and log inside one
transaction; every failure records an indexed error and leaves the store
untouched. -/
def bulkUpdateStep (fk_fields : List (String × String)) (validate : Data → Bool)
    (save : DB → Row → Data → Except String (DB × Row)) (reprOf : Row → String)
    (dumps : Data → String) (user : Option Nat)
    (db : DB) (i : Nat) (item : UpdateItem) : DB × ItemOutcome :=
  match item.id with
  | none => (db, .err { index := i, error := "id is required for update" })
  | some obj_id =>
    match db.getRow obj_id with
    | none =>
      (db, .err { index := i, error := "Object with id " ++ toString obj_id ++ " not found" })
    | some obj =>
      let normalized := normalize_fk_fields fk_fields item.data
      let merged := mergeDict obj.flds normalized
      if !validate merged then
        (db, .err { index := i, error := "Validation failed" })
      else
        match save db obj merged with
        | .error e => (db, .err { index := i, error := e })
        | .ok (db1, obj1) =>
          let serialized := dumps item.data
          let serialized :=
            if serialized.length > 500 then serialized.take 500 ++ "... (truncated)" else serialized
          let db2 := log_action user obj_id (reprOf obj1) CHANGE
            ("Bulk updated via MCP: " ++ serialized) db1
          (db2, .ok { index := i, id := obj_id, kind := "updated" })

/-- One iteration of handle_bulk_delete: fetch the instance, then inside
one transaction write the DELETION audit row and delete; a delete failure
rolls the whole block back, audit row included, and records an indexed
error. -/
def bulkDeleteStep (deleteFn : DB → Row → Except String DB) (reprOf : Row → String)
    (user : Option Nat) (db : DB) (i : Nat) (obj_id : Nat) : DB × ItemOutcome :=
  match db.getRow obj_id with
  | none =>
    (db, .err { index := i, error := "Object with id " ++ toString obj_id ++ " not found" })
  | some obj =>
    let db1 := log_action user obj_id (reprOf obj) DELETION "Bulk deleted via MCP" db
    match deleteFn db1 obj with
    | .error e => (db, .err { index := i, error := e })
    | .ok db2 => (db2, .ok { index := i, id := obj_id, kind := "deleted" })

/-- Mirrors handle_bulk_create: loop over the items and assemble the
aggregate response. -/
def handle_bulk_create (fk_fields : List (String × String)) (validate : Data → Bool)
    (save : DB → Data → Except String (DB × Row)) (reprOf : Row → String)
    (user : Option Nat) (db : DB) (items : List Data) : DB × BulkResponse :=
  let r := bulkLoop (bulkCreateStep fk_fields validate save reprOf user) db 0 items
  (r.1, bulk_response "create" items.length r.2)

/-- Mirrors handle_bulk_update. -/
def handle_bulk_update (fk_fields : List (String × String)) (validate : Data → Bool)
    (save : DB → Row → Data → Except String (DB × Row)) (reprOf : Row → String)
    (dumps : Data → String) (user : Option Nat) (db : DB) (items : List UpdateItem) :
    DB × BulkResponse :=
  let r := bulkLoop (bulkUpdateStep fk_fields validate save reprOf dumps user) db 0 items
  (r.1, bulk_response "update" items.length r.2)

/-- Mirrors handle_bulk_delete on a list of ids. -/
def handle_bulk_delete (deleteFn : DB → Row → Except String DB) (reprOf : Row → String)
    (user : Option Nat) (db : DB) (items : List Nat) : DB × BulkResponse :=
  let r := bulkLoop (bulkDeleteStep deleteFn reprOf user) db 0 items
  (r.1, bulk_response "delete" items.length r.2)

/-! ### Supporting lemmas for the permission model -/

theorem splitDot1_append (a c : List Char) (ha : '.' ∉ a) :
    splitDot1 (a ++ '.' :: c) = some (a, c) := by
  induction a with
  | nil => simp [splitDot1]
  | cons x xs ih =>
    have hx : ¬ x = '.' := fun h => ha (h ▸ List.mem_cons_self x xs)
    have hxs : '.' ∉ xs := fun h => ha (List.mem_cons_of_mem x h)
    simp [splitDot1, hx, ih hxs]

theorem permString_inj {a a' c c' : List Char} (ha : '.' ∉ a) (ha' : '.' ∉ a')
    (h : a ++ '.' :: c = a' ++ '.' :: c') : a = a' ∧ c = c' := by
  have h1 := splitDot1_append a c ha
  have h2 := splitDot1_append a' c' ha'
  rw [h, h2] at h1
  cases h1
  exact ⟨rfl, rfl⟩

theorem perm_mk_mem_iff (l : List Perm) (app code : List Char) :
    (⟨app, code⟩ : Perm) ∈ l ↔ ∃ q ∈ l, q.app_label = app ∧ q.codename = code := by
  constructor
  · intro h
    exact ⟨⟨app, code⟩, h, rfl, rfl⟩
  · rintro ⟨⟨qa, qc⟩, hq, h1, h2⟩
    cases h1
    cases h2
    exact hq

/-- Claim C3: for a well-formed permission string (dot-free app label,
stored app labels dot-free as Django guarantees), has_perm grants exactly
when the permission is held directly or through some group, and this is
exactly membership in get_all_permissions. -/
theorem C3_has_perm_iff_union_and_get_all (tk : TokenPerms) (app code : List Char)
    (happ : '.' ∉ app)
    (hstored : ∀ p ∈ tk.permissions ++ tk.groups.flatten, '.' ∉ p.app_label) :
    (tk.has_perm (app ++ '.' :: code) = true ↔
      ((⟨app, code⟩ : Perm) ∈ tk.permissions ∨
        ∃ g ∈ tk.groups, (⟨app, code⟩ : Perm) ∈ g)) ∧
    (tk.has_perm (app ++ '.' :: code) = true ↔
      (app ++ '.' :: code) ∈ tk.get_all_permissions) := by
  have hbase : tk.has_perm (app ++ '.' :: code) = true ↔
      ((⟨app, code⟩ : Perm) ∈ tk.permissions ∨
        ∃ g ∈ tk.groups, (⟨app, code⟩ : Perm) ∈ g) := by
    unfold TokenPerms.has_perm
    rw [splitDot1_append app code happ]
    simp only [Bool.or_eq_true, List.any_eq_true, Bool.and_eq_true, beq_iff_eq]
    rw [perm_mk_mem_iff]
    constructor
    · rintro (h | ⟨g, hg, hq⟩)
      · exact Or.inl h
      · exact Or.inr ⟨g, hg, (perm_mk_mem_iff g app code).mpr hq⟩
    · rintro (h | ⟨g, hg, hq⟩)
      · exact Or.inl h
      · exact Or.inr ⟨g, hg, (perm_mk_mem_iff g app code).mp hq⟩
  refine ⟨hbase, hbase.trans ?_⟩
  have hmem : (⟨app, code⟩ : Perm) ∈ tk.permissions ++ tk.groups.flatten ↔
      ((⟨app, code⟩ : Perm) ∈ tk.permissions ∨
        ∃ g ∈ tk.groups, (⟨app, code⟩ : Perm) ∈ g) := by
    rw [List.mem_append, List.mem_flatten]
  rw [← hmem]
  unfold TokenPerms.get_all_permissions
  rw [List.mem_map]
  constructor
  · intro h
    exact ⟨⟨app, code⟩, h, rfl⟩
  · rintro ⟨p, hp, hps⟩
    have hpd := hstored p hp
    have := permString_inj hpd happ hps
    obtain ⟨h1, h2⟩ := this
    have : p = ⟨app, code⟩ := by
      cases p
      simp_all [Perm.permString]
    rwa [this] at hp

/-- Claim C3 witness: a token whose only grant comes through a group is
granted the permission, and the permission string is in the effective set. -/
theorem C3_witness :
    groupOnlyToken.has_perm ("blog".toList ++ '.' :: "change_article".toList) = true ∧
    ("blog".toList ++ '.' :: "change_article".toList) ∈
      groupOnlyToken.get_all_permissions := by
  have h := C3_has_perm_iff_union_and_get_all groupOnlyToken
    "blog".toList "change_article".toList (by decide) (by decide)
  have hg : groupOnlyToken.has_perm ("blog".toList ++ '.' :: "change_article".toList) = true := by
    apply h.1.mpr
    exact Or.inr ⟨_, List.mem_cons_self _ _, List.mem_cons_self _ _⟩
  exact ⟨hg, h.2.mp hg⟩

/-! ### Credential lifecycle theorems -/

/-- Claim C4: for a credential freshly created by the store (no hash yet),
after save the legacy plaintext column is cleared, only the salt and the
salted hash are persisted, the first retrieval returns the plaintext and
clears it, and any retrieval from a cleared instance returns nothing. -/
theorem C4_plaintext_exactly_once (hashToken : String → String → String)
    (newToken newSalt : String) (now : Int) (freshPk : Nat) (tk : MCPToken)
    (hfresh : tk.token_hash = none) :
    let saved := tk.save hashToken newToken newSalt now freshPk
    saved.token = none ∧
    saved.salt = some newSalt ∧
    saved.token_hash = some (hashToken newToken newSalt) ∧
    saved.get_plaintext_token.1 = some newToken ∧
    saved.get_plaintext_token.2.plaintext_token = none ∧
    (∀ tk2 : MCPToken, tk2.plaintext_token = none →
        tk2.get_plaintext_token = (none, tk2)) := by
  intro saved
  have hclear : ∀ tk2 : MCPToken, tk2.plaintext_token = none →
      tk2.get_plaintext_token = (none, tk2) := by
    intro tk2 h2
    unfold MCPToken.get_plaintext_token
    rw [h2]
    cases tk2
    simp_all
  refine ⟨?_, ?_, ?_, ?_, ?_, hclear⟩ <;>
    simp only [saved, MCPToken.save, MCPToken.get_plaintext_token, hfresh,
      Option.isNone_none, if_true] <;>
    first
      | rfl
      | (split <;> rfl)

/-- Claim C4 witness at a concrete fresh token. -/
theorem C4_plaintext_exactly_once_witness :
    (MCPToken.new "Prod API" false none).token_hash = none ∧
    (let saved := (MCPToken.new "Prod API" false none).save
        (fun t s => s ++ t) "tok" "salt" 100 1
     saved.token = none ∧
     saved.salt = some "salt" ∧
     saved.token_hash = some ((fun (t s : String) => s ++ t) "tok" "salt") ∧
     saved.get_plaintext_token.1 = some "tok" ∧
     saved.get_plaintext_token.2.plaintext_token = none ∧
     (∀ tk2 : MCPToken, tk2.plaintext_token = none →
        tk2.get_plaintext_token = (none, tk2))) :=
  ⟨rfl, C4_plaintext_exactly_once (fun t s => s ++ t) "tok" "salt" 100 1
    (MCPToken.new "Prod API" false none) rfl⟩

/-- Claim C5: a credential first saved without an explicit expires_at gets
now plus ninety days; a credential created with expires_at explicitly null
stays null through this and any later save and is never expired. -/
theorem C5_default_expiry_and_explicit_null (hashToken : String → String → String)
    (newToken newSalt : String) (now : Int) (freshPk : Nat) (nm : String) :
    ((MCPToken.new nm false none).save hashToken newToken newSalt now freshPk).expires_at =
      some (now + ninetyDays) ∧
    (let t := (MCPToken.new nm true none).save hashToken newToken newSalt now freshPk
     t.expires_at = none ∧ (∀ time : Int, t.is_expired time = false) ∧
     (∀ (nt ns : String) (n2 : Int) (p2 : Nat),
        (t.save hashToken nt ns n2 p2).expires_at = none ∧
        (∀ time : Int, (t.save hashToken nt ns n2 p2).is_expired time = false))) :=
  ⟨rfl, rfl, fun _ => rfl, fun _ _ _ _ => ⟨rfl, fun _ => rfl⟩⟩

/-- Claim C6 counterexample: an active token whose expiry instant equals
the current instant is still reported valid by the code, while the claim
requires strict validity (now strictly before expires_at) and calls the
credential invalid at that instant. -/
theorem C6_counterexample_boundary :
    boundaryToken.is_active = true ∧
    boundaryToken.expires_at = some 5 ∧
    boundaryToken.is_valid 5 = true ∧
    ¬((5 : Int) < 5) := by decide

/-- Claim C6 (amended): is_valid holds exactly when the token is active and
either never expires or now is at or before expires_at; in particular the
token is still valid at the instant now equals expires_at. -/
theorem C6_is_valid_characterisation (tk : MCPToken) (now : Int) :
    tk.is_valid now =
      (tk.is_active &&
        match tk.expires_at with
        | none => true
        | some t => decide (now ≤ t)) := by
  unfold MCPToken.is_valid MCPToken.is_expired
  cases h : tk.expires_at with
  | none => simp
  | some t =>
    simp only [gt_iff_lt]
    congr 1
    rw [← decide_not]
    congr 1
    simp [not_lt]

/-! ### Dict and row lemmas -/

theorem dictGet_map_overwrite_ne (d : Data) (k f : String) (v : Value)
    (h : (k == f) = false) :
    dictGet (d.map fun kv => if kv.1 == k then (k, v) else kv) f = dictGet d f := by
  induction d with
  | nil => rfl
  | cons kv0 rest ih =>
    by_cases h0 : (kv0.1 == k) = true
    · have hkf : (kv0.1 == f) = false := by
        have : kv0.1 = k := by simpa using h0
        simpa [this] using h
      simp [dictGet, List.find?, h0, h, hkf] at *
      exact ih
    · have h0f : (kv0.1 == k) = false := by simpa using h0
      by_cases h1 : (kv0.1 == f) = true
      · simp [dictGet, List.find?, h0f, h1]
      · have h1f : (kv0.1 == f) = false := by simpa using h1
        simp [dictGet, List.find?, h0f, h1f] at *
        exact ih

theorem dictGet_append_single_ne (d : Data) (k f : String) (v : Value)
    (h : (k == f) = false) :
    dictGet (d ++ [(k, v)]) f = dictGet d f := by
  induction d with
  | nil => simp [dictGet, List.find?, h]
  | cons kv0 rest ih =>
    by_cases h1 : (kv0.1 == f) = true
    · simp [dictGet, List.find?, h1]
    · have h1f : (kv0.1 == f) = false := by simpa using h1
      simp [dictGet, List.find?, h1f] at *
      exact ih

theorem dictGet_dictSet_ne (d : Data) (k f : String) (v : Value)
    (h : (k == f) = false) :
    dictGet (dictSet d k v) f = dictGet d f := by
  unfold dictSet
  split
  · exact dictGet_map_overwrite_ne d k f v h
  · exact dictGet_append_single_ne d k f v h

theorem dictGet_fold_set_not_mem (data : Data) (f : String)
    (hf : dictHas data f = false) (acc : Data) :
    dictGet (data.foldl (fun acc kv => dictSet acc kv.1 kv.2) acc) f = dictGet acc f := by
  induction data generalizing acc with
  | nil => rfl
  | cons kv rest ih =>
    have hkv : (kv.1 == f) = false := by
      by_contra hc
      simp only [Bool.not_eq_false] at hc
      simp [dictHas, List.any_cons, hc] at hf
    have hrest : dictHas rest f = false := by
      simp only [dictHas, List.any_cons, Bool.or_eq_false_iff] at hf
      exact hf.2
    simp only [List.foldl_cons]
    rw [ih hrest, dictGet_dictSet_ne acc kv.1 f kv.2 hkv]

theorem row_find?_map_overwrite (l : List Row) (row : Row) :
    ((l.map fun r => if r.pk == row.pk then row else r).find? fun r => r.pk == row.pk) =
      if l.any (fun r => r.pk == row.pk) then some row else none := by
  induction l with
  | nil => rfl
  | cons r0 rest ih =>
    by_cases h0 : (r0.pk == row.pk) = true
    · simp only [List.map_cons, if_pos h0, List.any_cons, h0, Bool.true_or, if_true,
        List.find?, beq_self_eq_true, cond_true]
    · have h0f : (r0.pk == row.pk) = false := by simpa using h0
      rw [List.map_cons, if_neg h0]
      simp only [List.find?, h0f, List.any_cons, Bool.false_or]
      exact ih

theorem row_find?_append_self (l : List Row) (row : Row)
    (h : l.any (fun r => r.pk == row.pk) = false) :
    ((l ++ [row]).find? fun r => r.pk == row.pk) = some row := by
  induction l with
  | nil =>
    simp only [List.nil_append, List.find?, beq_self_eq_true, cond_true]
  | cons r0 rest ih =>
    simp only [List.any_cons, Bool.or_eq_false_iff] at h
    simp only [List.cons_append, List.find?, h.1, cond_false]
    exact ih h.2

/-- Persisting an instance makes it the row fetched for its key. -/
theorem DB.getRow_saveRow_self (db : DB) (row : Row) :
    (db.saveRow row).getRow row.pk = some row := by
  unfold DB.saveRow DB.getRow
  split
  · rename_i h
    rw [row_find?_map_overwrite, if_pos h]
  · rename_i h
    exact row_find?_append_self db.rows row (by simpa using h)

/-- The audit write of log_action does not touch the rows. -/
theorem log_action_rows (user : Option Nat) (objPk : Nat) (objRepr : String)
    (flag : Nat) (msg : String) (db : DB) :
    (log_action user objPk objRepr flag msg db).rows = db.rows := by
  cases user <;> rfl

/-- Deleting a row never touches the audit table. -/
theorem deleteRow_audit (db : DB) (pk : Nat) : (db.deleteRow pk).audit = db.audit := rfl

/-- After the physical delete the row is gone. -/
theorem getRow_deleteRow_self (db : DB) (pk : Nat) :
    (db.deleteRow pk).getRow pk = none := by
  unfold DB.deleteRow DB.getRow
  rw [List.find?_eq_none]
  intro r hr
  have := (List.mem_filter.mp hr).2
  simpa using this

/-! ### Create failure mapping and foreign-key normalization claims -/

/-- Claim C2: the claim is contradicted by the code.  At the concrete
failing input (a create whose insert raises the uniqueness violation), the
single-item create handler returns the raw storage-driver message with no
code field at all, not the structured duplicate_entry error; the engine
failure mapper handle_database_error maps every IntegrityError to the code
integrity_error, never to duplicate_entry.  The store is untouched: no row
is inserted and no audit row is written (which is the part of the claim
the code does honour). -/
theorem C2_create_failure_returns_raw_driver_message :
    handle_create true failingCreateFn (fun _ => "Author") (fun _ => "") (some 7)
        dupCreateDb [("name", Value.vStr "B"), ("email", Value.vStr "x@e.com")] =
      (dupCreateDb, CrudResp.error dupMsg none) ∧
    (handle_database_error (DbException.integrityError dupMsg)).code = "integrity_error" ∧
    ¬ (handle_database_error (DbException.integrityError dupMsg)).code = "duplicate_entry" := by
  refine ⟨rfl, rfl, ?_⟩
  decide

/-- Claim C9 counterexample: the single-item create handler performs no
foreign-key normalization.  A probe persistence function observing the
field names it receives sees the column-style key author_id unchanged,
while running the same handler on the normalized data makes it see the
logical name author: so no normalization happens before persistence and
the two runs differ. -/
theorem C9_counterexample_single_create_not_normalized :
    (handle_create true probeCreateFn (fun _ => "") (fun _ => "") (some 1) emptyDB
        [("author_id", Value.vInt 5)]).2 =
      CrudResp.error "author_id" none ∧
    normalize_fk_fields authorFkFields [("author_id", Value.vInt 5)] =
      [("author", Value.vInt 5)] ∧
    (handle_create true probeCreateFn (fun _ => "") (fun _ => "") (some 1) emptyDB
        (normalize_fk_fields authorFkFields [("author_id", Value.vInt 5)])).2 =
      CrudResp.error "author" none ∧
    ¬ (CrudResp.error "author_id" none = CrudResp.error "author" none) := by
  refine ⟨rfl, rfl, rfl, ?_⟩
  decide

/-! ### Update rejection and frame claims -/

/-- Claim C7: an update whose data carries an undeclared key, or (with an
admin configured) a read-only key, is rejected with a structured error and
the store is returned untouched: no field write, no inline cascade, no
audit row. -/
theorem C7_update_rejects_undeclared_and_readonly
    (permitted : Bool) (valid_fields : List String) (admin : Option AdminCfg)
    (updateInlines : DB → Row → InlinesData → DB) (reprOf : Row → String)
    (user : Option Nat) (dumps : Data → String) (db : DB) (args : UpdateArgs)
    (hbad : (∃ kv ∈ args.data, valid_fields.contains kv.1 = false) ∨
      (∃ a, admin = some a ∧ ∃ kv ∈ args.data, a.readonly_fields.contains kv.1 = true)) :
    (handle_update permitted valid_fields admin updateInlines reprOf user dumps db args).1
      = db ∧
    (handle_update permitted valid_fields admin updateInlines reprOf user dumps db
      args).2.isError = true := by
  unfold handle_update
  split
  · exact ⟨rfl, rfl⟩
  · split
    · exact ⟨rfl, rfl⟩
    · rename_i objId
      split
      · exact ⟨rfl, rfl⟩
      · rename_i hfind
        split
        · exact ⟨rfl, rfl⟩
        · rename_i hro
          exfalso
          rw [List.find?_eq_none] at hfind
          rcases hbad with ⟨kv, hmem, hval⟩ | ⟨a, ha, kv, hmem, hro2⟩
          · refine hfind kv hmem ?_
            rw [hval]
            rfl
          · apply hro
            subst ha
            have hkv : kv ∈ readonlyAttempted (some a) args.data := by
              simp only [readonlyAttempted]
              exact List.mem_filter.mpr ⟨hmem, hro2⟩
            have hne := List.ne_nil_of_mem hkv
            cases hq : readonlyAttempted (some a) args.data with
            | nil => exact absurd hq hne
            | cons x xs => rfl

/-- Claim C7 witness: a concrete update naming a read-only field is
rejected with the store untouched. -/
theorem C7_witness :
    (handle_update true ["name", "email"] (some { readonly_fields := ["email"] })
        (fun d _ _ => d) (fun _ => "") (some 1) (fun _ => "") dupCreateDb
        { id := some 1, data := [("email", Value.vStr "y@e.com")], inlines := [] }).1
      = dupCreateDb ∧
    (handle_update true ["name", "email"] (some { readonly_fields := ["email"] })
        (fun d _ _ => d) (fun _ => "") (some 1) (fun _ => "") dupCreateDb
        { id := some 1, data := [("email", Value.vStr "y@e.com")], inlines := [] }).2.isError
      = true :=
  C7_update_rejects_undeclared_and_readonly true ["name", "email"]
    (some { readonly_fields := ["email"] }) (fun d _ _ => d) (fun _ => "") (some 1)
    (fun _ => "") dupCreateDb
    { id := some 1, data := [("email", Value.vStr "y@e.com")], inlines := [] }
    (Or.inr ⟨{ readonly_fields := ["email"] }, rfl,
      ("email", Value.vStr "y@e.com"), by decide, by decide⟩)

/-- Claim C10: the setattr loop of update_object writes only the requested
keys: any field not named in data keeps its value on the updated instance,
and the persisted row is exactly that instance. -/
theorem C10_update_touches_only_named_fields (db : DB) (obj : Row) (objId : Nat)
    (data : Data) (f : String)
    (hget : db.getRow objId = some obj) (hf : dictHas data f = false) :
    dictGet (set_fields obj data).flds f = dictGet obj.flds f ∧
    (db.saveRow (set_fields obj data)).getRow objId = some (set_fields obj data) := by
  constructor
  · exact dictGet_fold_set_not_mem data f hf obj.flds
  · have hfind : db.rows.find? (fun r => r.pk == objId) = some obj := hget
    have hp := List.find?_some hfind
    have hpk2 : obj.pk = objId := by simpa using hp
    have hsp : (set_fields obj data).pk = objId := by
      simp [set_fields, hpk2]
    rw [← hsp]
    exact DB.getRow_saveRow_self db (set_fields obj data)

/-- Claim C10 witness at a concrete row and update. -/
theorem C10_witness :
    dictGet (set_fields
        { pk := 1, flds := [("name", Value.vStr "A"), ("email", Value.vStr "x@e.com")] }
        [("name", Value.vStr "B")]).flds "email" =
      dictGet [("name", Value.vStr "A"), ("email", Value.vStr "x@e.com")] "email" ∧
    (dupCreateDb.saveRow (set_fields
        { pk := 1, flds := [("name", Value.vStr "A"), ("email", Value.vStr "x@e.com")] }
        [("name", Value.vStr "B")])).getRow 1 =
      some (set_fields
        { pk := 1, flds := [("name", Value.vStr "A"), ("email", Value.vStr "x@e.com")] }
        [("name", Value.vStr "B")]) :=
  C10_update_touches_only_named_fields dupCreateDb
    { pk := 1, flds := [("name", Value.vStr "A"), ("email", Value.vStr "x@e.com")] } 1
    [("name", Value.vStr "B")] "email" (by decide) (by decide)

/-! ### Delete ordering claim -/

/-- Claim C8: on a successful single-item delete by a known principal the
DELETION audit row, carrying the object description, is written on an
intermediate state in which the row still exists, and only then is the row
deleted; the description survives in the audit table after the row is
gone.  With no known principal no audit row is written by any mutation
(log_action is the identity) while the delete itself still proceeds. -/
theorem C8_audit_written_before_delete (db : DB) (objId : Nat) (reprOf : Row → String)
    (uid : Nat) (obj : Row) (hget : db.getRow objId = some obj) :
    (let dbMid := log_action (some uid) objId (reprOf obj) DELETION "Deleted via MCP" db
     delete_object db objId reprOf (some uid) = some (dbMid.deleteRow objId, reprOf obj) ∧
     dbMid.getRow objId = some obj ∧
     dbMid.audit = db.audit ++
       [{ user_id := uid
          object_id := toString objId
          object_repr := (reprOf obj).take 200
          action_flag := DELETION
          change_message := "Deleted via MCP" }] ∧
     (dbMid.deleteRow objId).getRow objId = none ∧
     (dbMid.deleteRow objId).audit = dbMid.audit) ∧
    delete_object db objId reprOf none = some (db.deleteRow objId, reprOf obj) ∧
    (db.deleteRow objId).audit = db.audit ∧
    (db.deleteRow objId).getRow objId = none ∧
    (∀ (pk0 : Nat) (repr0 : String) (flag0 : Nat) (msg0 : String) (d : DB),
        log_action none pk0 repr0 flag0 msg0 d = d) := by
  refine ⟨⟨?_, ?_, rfl, getRow_deleteRow_self _ objId, deleteRow_audit _ objId⟩,
    ?_, deleteRow_audit db objId, getRow_deleteRow_self db objId, fun _ _ _ _ _ => rfl⟩
  · unfold delete_object
    rw [hget]
  · show DB.getRow _ objId = some obj
    unfold DB.getRow
    rw [log_action_rows]
    exact hget
  · unfold delete_object
    rw [hget]
    rfl

/-- Claim C8 witness at a concrete store. -/
theorem C8_witness :
    (let dbMid := log_action (some 7) 1
        ((fun (r : Row) => "row " ++ toString r.pk)
          { pk := 1, flds := [("name", Value.vStr "A"), ("email", Value.vStr "x@e.com")] })
        DELETION "Deleted via MCP" dupCreateDb
     delete_object dupCreateDb 1 (fun r => "row " ++ toString r.pk) (some 7) =
        some (dbMid.deleteRow 1,
          (fun (r : Row) => "row " ++ toString r.pk)
            { pk := 1, flds := [("name", Value.vStr "A"), ("email", Value.vStr "x@e.com")] }) ∧
     dbMid.getRow 1 =
        some { pk := 1, flds := [("name", Value.vStr "A"), ("email", Value.vStr "x@e.com")] } ∧
     dbMid.audit = dupCreateDb.audit ++
       [{ user_id := 7
          object_id := toString 1
          object_repr := ((fun (r : Row) => "row " ++ toString r.pk)
            { pk := 1, flds := [("name", Value.vStr "A"), ("email", Value.vStr "x@e.com")] }).take 200
          action_flag := DELETION
          change_message := "Deleted via MCP" }] ∧
     (dbMid.deleteRow 1).getRow 1 = none ∧
     (dbMid.deleteRow 1).audit = dbMid.audit) ∧
    delete_object dupCreateDb 1 (fun r => "row " ++ toString r.pk) none =
      some (dupCreateDb.deleteRow 1,
        (fun (r : Row) => "row " ++ toString r.pk)
          { pk := 1, flds := [("name", Value.vStr "A"), ("email", Value.vStr "x@e.com")] }) ∧
    (dupCreateDb.deleteRow 1).audit = dupCreateDb.audit ∧
    (dupCreateDb.deleteRow 1).getRow 1 = none ∧
    (∀ (pk0 : Nat) (repr0 : String) (flag0 : Nat) (msg0 : String) (d : DB),
        log_action none pk0 repr0 flag0 msg0 d = d) :=
  C8_audit_written_before_delete dupCreateDb 1 (fun r => "row " ++ toString r.pk) 7
    { pk := 1, flds := [("name", Value.vStr "A"), ("email", Value.vStr "x@e.com")] }
    (by decide)

/-! ### Bulk loop lemmas -/

theorem bulkLoop_length {α : Type} (step : DB → Nat → α → DB × ItemOutcome)
    (db : DB) (i : Nat) (l : List α) :
    ((bulkLoop step db i l).2).length = l.length := by
  induction l generalizing db i with
  | nil => rfl
  | cons a rest ih => simp [bulkLoop, ih]

theorem itemOutcome_index_ok (e : SuccessEntry) :
    (ItemOutcome.ok e).index = e.index := rfl

theorem itemOutcome_index_err (e : ErrorEntry) :
    (ItemOutcome.err e).index = e.index := rfl

theorem bulkLoop_countP_index {α : Type} (step : DB → Nat → α → DB × ItemOutcome)
    (hidx : ∀ db i a, ((step db i a).2).index = i)
    (db : DB) (i : Nat) (l : List α) (i0 : Nat) :
    ((bulkLoop step db i l).2).countP (fun o => o.index == i0) =
      if i ≤ i0 ∧ i0 < i + l.length then 1 else 0 := by
  induction l generalizing db i with
  | nil =>
    simp only [bulkLoop, List.countP_nil, List.length_nil]
    rw [if_neg (by omega)]
  | cons a rest ih =>
    simp only [bulkLoop, List.countP_cons, ih, hidx, List.length_cons, beq_iff_eq]
    split <;> split <;> split <;> omega

theorem collect_length (os : List ItemOutcome) :
    (collectResults os).success.length + (collectResults os).errors.length = os.length := by
  induction os with
  | nil => rfl
  | cons o rest ih =>
    cases o with
    | ok e =>
      simp only [collectResults, List.length_cons]
      omega
    | err e =>
      simp only [collectResults, List.length_cons]
      omega

theorem collect_countP (os : List ItemOutcome) (i0 : Nat) :
    (collectResults os).success.countP (fun e => e.index == i0) +
      (collectResults os).errors.countP (fun e => e.index == i0) =
      os.countP (fun o => o.index == i0) := by
  induction os with
  | nil => rfl
  | cons o rest ih =>
    cases o with
    | ok e =>
      simp only [collectResults, List.countP_cons, itemOutcome_index_ok]
      omega
    | err e =>
      simp only [collectResults, List.countP_cons, itemOutcome_index_err]
      omega

theorem collect_success_sublist (os : List ItemOutcome) :
    ((collectResults os).success.map SuccessEntry.index).Sublist
      (os.map ItemOutcome.index) := by
  induction os with
  | nil => simp [collectResults]
  | cons o rest ih =>
    cases o with
    | ok e =>
      simp only [collectResults, List.map_cons, itemOutcome_index_ok]
      exact ih.cons₂ e.index
    | err e =>
      simp only [collectResults, List.map_cons, itemOutcome_index_err]
      exact ih.cons e.index

theorem collect_errors_sublist (os : List ItemOutcome) :
    ((collectResults os).errors.map ErrorEntry.index).Sublist
      (os.map ItemOutcome.index) := by
  induction os with
  | nil => simp [collectResults]
  | cons o rest ih =>
    cases o with
    | ok e =>
      simp only [collectResults, List.map_cons, itemOutcome_index_ok]
      exact ih.cons e.index
    | err e =>
      simp only [collectResults, List.map_cons, itemOutcome_index_err]
      exact ih.cons₂ e.index

theorem bulkLoop_map_index {α : Type} (step : DB → Nat → α → DB × ItemOutcome)
    (hidx : ∀ db i a, ((step db i a).2).index = i)
    (db : DB) (i : Nat) (l : List α) :
    ((bulkLoop step db i l).2).map ItemOutcome.index = List.range' i l.length := by
  induction l generalizing db i with
  | nil => rfl
  | cons a rest ih =>
    simp only [bulkLoop, List.map_cons, hidx, List.length_cons, List.range'_succ, ih]

theorem bulkLoop_fst_append {α : Type} (step : DB → Nat → α → DB × ItemOutcome)
    (db : DB) (i : Nat) (l₁ l₂ : List α) :
    (bulkLoop step db i (l₁ ++ l₂)).1 =
      (bulkLoop step (bulkLoop step db i l₁).1 (i + l₁.length) l₂).1 := by
  induction l₁ generalizing db i with
  | nil => simp [bulkLoop]
  | cons a rest ih =>
    show (bulkLoop step (step db i a).1 (i + 1) (rest ++ l₂)).1 =
      (bulkLoop step (bulkLoop step (step db i a).1 (i + 1) rest).1
        (i + (rest.length + 1)) l₂).1
    rw [ih (step db i a).1 (i + 1)]
    have harith : i + 1 + rest.length = i + (rest.length + 1) := by omega
    rw [harith]

theorem bulkLoop_fst_index_indep {α : Type} (step : DB → Nat → α → DB × ItemOutcome)
    (hdb : ∀ db i j a, (step db i a).1 = (step db j a).1)
    (db : DB) (i j : Nat) (l : List α) :
    (bulkLoop step db i l).1 = (bulkLoop step db j l).1 := by
  induction l generalizing db i j with
  | nil => rfl
  | cons a rest ih =>
    simp only [bulkLoop]
    rw [hdb db i j a]
    exact ih (step db j a).1 (i + 1) (j + 1)

/-- Within a batch, a failing item whose step leaves the store untouched
does not change the final store: the run on the batch with the failing
item equals the run on the batch without it. -/
theorem bulkLoop_skip {α : Type} (step : DB → Nat → α → DB × ItemOutcome)
    (hdb : ∀ db i j a, (step db i a).1 = (step db j a).1)
    (db : DB) (l₁ : List α) (bad : α) (l₂ : List α)
    (hfail : (step (bulkLoop step db 0 l₁).1 l₁.length bad).1 =
      (bulkLoop step db 0 l₁).1) :
    (bulkLoop step db 0 (l₁ ++ bad :: l₂)).1 = (bulkLoop step db 0 (l₁ ++ l₂)).1 := by
  rw [bulkLoop_fst_append, bulkLoop_fst_append]
  simp only [bulkLoop, Nat.zero_add]
  rw [hfail]
  exact bulkLoop_fst_index_indep step hdb _ (l₁.length + 1) l₁.length l₂

/-- The invariant bundle shared by the three bulk handlers: as many
outcomes as items, reconciling counters, each input index in exactly one
of the two result lists, and both lists in ascending input order. -/
theorem bulk_response_invariants {α : Type} (step : DB → Nat → α → DB × ItemOutcome)
    (hidx : ∀ db i a, ((step db i a).2).index = i) (op : String) (db : DB)
    (items : List α) :
    (bulk_response op items.length (bulkLoop step db 0 items).2).total_items =
      items.length ∧
    (bulk_response op items.length (bulkLoop step db 0 items).2).success_count +
      (bulk_response op items.length (bulkLoop step db 0 items).2).error_count =
      items.length ∧
    (∀ i0, i0 < items.length →
      (bulk_response op items.length
          (bulkLoop step db 0 items).2).results.success.countP
          (fun e => e.index == i0) +
        (bulk_response op items.length
          (bulkLoop step db 0 items).2).results.errors.countP
          (fun e => e.index == i0) = 1) ∧
    List.Pairwise (· < ·)
      ((bulk_response op items.length
        (bulkLoop step db 0 items).2).results.success.map SuccessEntry.index) ∧
    List.Pairwise (· < ·)
      ((bulk_response op items.length
        (bulkLoop step db 0 items).2).results.errors.map ErrorEntry.index) := by
  have hlen := bulkLoop_length step db 0 items
  have hrange := bulkLoop_map_index step hidx db 0 items
  have hpw : List.Pairwise (· < ·)
      (((bulkLoop step db 0 items).2).map ItemOutcome.index) := by
    rw [hrange]
    exact List.pairwise_lt_range' 0 items.length
  refine ⟨rfl, ?_, ?_, ?_, ?_⟩
  · show (collectResults _).success.length + (collectResults _).errors.length = _
    rw [collect_length]
    exact hlen
  · intro i0 hi0
    show (collectResults _).success.countP _ + (collectResults _).errors.countP _ = 1
    rw [collect_countP, bulkLoop_countP_index step hidx db 0 items i0]
    rw [if_pos ⟨Nat.zero_le i0, by omega⟩]
  · exact List.Pairwise.sublist (collect_success_sublist _) hpw
  · exact List.Pairwise.sublist (collect_errors_sublist _) hpw

/-! ### Per-step facts for the three bulk handlers -/

theorem bulkCreateStep_index (fk_fields : List (String × String)) (validate : Data → Bool)
    (save : DB → Data → Except String (DB × Row)) (reprOf : Row → String)
    (user : Option Nat) (db : DB) (i : Nat) (a : Data) :
    ((bulkCreateStep fk_fields validate save reprOf user db i a).2).index = i := by
  unfold bulkCreateStep
  dsimp only
  split
  · rfl
  · split <;> rfl

theorem bulkCreateStep_db_indep (fk_fields : List (String × String)) (validate : Data → Bool)
    (save : DB → Data → Except String (DB × Row)) (reprOf : Row → String)
    (user : Option Nat) (db : DB) (i j : Nat) (a : Data) :
    (bulkCreateStep fk_fields validate save reprOf user db i a).1 =
      (bulkCreateStep fk_fields validate save reprOf user db j a).1 := by
  unfold bulkCreateStep
  dsimp only
  split
  · rfl
  · split <;> rfl

theorem bulkCreateStep_rollback (fk_fields : List (String × String)) (validate : Data → Bool)
    (save : DB → Data → Except String (DB × Row)) (reprOf : Row → String)
    (user : Option Nat) (db : DB) (i : Nat) (a : Data)
    (h : ((bulkCreateStep fk_fields validate save reprOf user db i a).2).isOk = false) :
    (bulkCreateStep fk_fields validate save reprOf user db i a).1 = db := by
  revert h
  unfold bulkCreateStep
  dsimp only
  split
  · intro _
    rfl
  · split
    · intro _
      rfl
    · intro h
      simp [ItemOutcome.isOk] at h

theorem bulkUpdateStep_index (fk_fields : List (String × String)) (validate : Data → Bool)
    (save : DB → Row → Data → Except String (DB × Row)) (reprOf : Row → String)
    (dumps : Data → String) (user : Option Nat) (db : DB) (i : Nat) (a : UpdateItem) :
    ((bulkUpdateStep fk_fields validate save reprOf dumps user db i a).2).index = i := by
  unfold bulkUpdateStep
  dsimp only
  split
  · rfl
  · split
    · rfl
    · split
      · rfl
      · split <;> rfl

theorem bulkUpdateStep_db_indep (fk_fields : List (String × String)) (validate : Data → Bool)
    (save : DB → Row → Data → Except String (DB × Row)) (reprOf : Row → String)
    (dumps : Data → String) (user : Option Nat) (db : DB) (i j : Nat) (a : UpdateItem) :
    (bulkUpdateStep fk_fields validate save reprOf dumps user db i a).1 =
      (bulkUpdateStep fk_fields validate save reprOf dumps user db j a).1 := by
  unfold bulkUpdateStep
  dsimp only
  split
  · rfl
  · split
    · rfl
    · split
      · rfl
      · split <;> rfl

theorem bulkUpdateStep_rollback (fk_fields : List (String × String)) (validate : Data → Bool)
    (save : DB → Row → Data → Except String (DB × Row)) (reprOf : Row → String)
    (dumps : Data → String) (user : Option Nat) (db : DB) (i : Nat) (a : UpdateItem)
    (h : ((bulkUpdateStep fk_fields validate save reprOf dumps user db i a).2).isOk = false) :
    (bulkUpdateStep fk_fields validate save reprOf dumps user db i a).1 = db := by
  revert h
  unfold bulkUpdateStep
  dsimp only
  split
  · intro _
    rfl
  · split
    · intro _
      rfl
    · split
      · intro _
        rfl
      · split
        · intro _
          rfl
        · intro h
          simp [ItemOutcome.isOk] at h

theorem bulkDeleteStep_index (deleteFn : DB → Row → Except String DB)
    (reprOf : Row → String) (user : Option Nat) (db : DB) (i : Nat) (a : Nat) :
    ((bulkDeleteStep deleteFn reprOf user db i a).2).index = i := by
  unfold bulkDeleteStep
  dsimp only
  split
  · rfl
  · split <;> rfl

theorem bulkDeleteStep_db_indep (deleteFn : DB → Row → Except String DB)
    (reprOf : Row → String) (user : Option Nat) (db : DB) (i j : Nat) (a : Nat) :
    (bulkDeleteStep deleteFn reprOf user db i a).1 =
      (bulkDeleteStep deleteFn reprOf user db j a).1 := by
  unfold bulkDeleteStep
  dsimp only
  split
  · rfl
  · split <;> rfl

theorem bulkDeleteStep_rollback (deleteFn : DB → Row → Except String DB)
    (reprOf : Row → String) (user : Option Nat) (db : DB) (i : Nat) (a : Nat)
    (h : ((bulkDeleteStep deleteFn reprOf user db i a).2).isOk = false) :
    (bulkDeleteStep deleteFn reprOf user db i a).1 = db := by
  revert h
  unfold bulkDeleteStep
  dsimp only
  split
  · intro _
    rfl
  · split
    · intro _
      rfl
    · intro h
      simp [ItemOutcome.isOk] at h

/-- Claim C1: for each of the three bulk handlers, the aggregate reports
total_items equal to the number of input items with success_count plus
error_count reconciling to it, every input index appears in exactly one of
the success and errors lists (keyed by the original index, both lists in
ascending input order), a failing item always leaves the store exactly as
it was (its transaction rolled back), and a batch containing a failing
item drives the store to the same final state as the batch without it, so
no failure aborts or rolls back the other items. -/
theorem C1_bulk_aggregate_invariants
    (fk_fields : List (String × String)) (validateC : Data → Bool)
    (saveC : DB → Data → Except String (DB × Row)) (reprOfC : Row → String)
    (validateU : Data → Bool) (saveU : DB → Row → Data → Except String (DB × Row))
    (reprOfU : Row → String) (dumpsU : Data → String)
    (deleteFn : DB → Row → Except String DB) (reprOfD : Row → String)
    (user : Option Nat) (db : DB)
    (itemsC : List Data) (itemsU : List UpdateItem) (itemsD : List Nat)
    (lC1 : List Data) (badC : Data) (lC2 : List Data)
    (lU1 : List UpdateItem) (badU : UpdateItem) (lU2 : List UpdateItem)
    (lD1 : List Nat) (badD : Nat) (lD2 : List Nat)
    (hbadC : ((bulkCreateStep fk_fields validateC saveC reprOfC user
        (bulkLoop (bulkCreateStep fk_fields validateC saveC reprOfC user) db 0 lC1).1
        lC1.length badC).2).isOk = false)
    (hbadU : ((bulkUpdateStep fk_fields validateU saveU reprOfU dumpsU user
        (bulkLoop (bulkUpdateStep fk_fields validateU saveU reprOfU dumpsU user) db 0 lU1).1
        lU1.length badU).2).isOk = false)
    (hbadD : ((bulkDeleteStep deleteFn reprOfD user
        (bulkLoop (bulkDeleteStep deleteFn reprOfD user) db 0 lD1).1
        lD1.length badD).2).isOk = false) :
    ((handle_bulk_create fk_fields validateC saveC reprOfC user db itemsC).2.total_items
        = itemsC.length ∧
      (handle_bulk_create fk_fields validateC saveC reprOfC user db itemsC).2.success_count +
        (handle_bulk_create fk_fields validateC saveC reprOfC user db itemsC).2.error_count
        = itemsC.length ∧
      (∀ i0, i0 < itemsC.length →
        (handle_bulk_create fk_fields validateC saveC reprOfC user db
            itemsC).2.results.success.countP (fun e => e.index == i0) +
          (handle_bulk_create fk_fields validateC saveC reprOfC user db
            itemsC).2.results.errors.countP (fun e => e.index == i0) = 1) ∧
      List.Pairwise (· < ·)
        ((handle_bulk_create fk_fields validateC saveC reprOfC user db
          itemsC).2.results.success.map SuccessEntry.index) ∧
      List.Pairwise (· < ·)
        ((handle_bulk_create fk_fields validateC saveC reprOfC user db
          itemsC).2.results.errors.map ErrorEntry.index) ∧
      (∀ (db0 : DB) (i : Nat) (a : Data),
        ((bulkCreateStep fk_fields validateC saveC reprOfC user db0 i a).2).isOk = false →
        (bulkCreateStep fk_fields validateC saveC reprOfC user db0 i a).1 = db0) ∧
      (handle_bulk_create fk_fields validateC saveC reprOfC user db
          (lC1 ++ badC :: lC2)).1 =
        (handle_bulk_create fk_fields validateC saveC reprOfC user db (lC1 ++ lC2)).1) ∧
    ((handle_bulk_update fk_fields validateU saveU reprOfU dumpsU user db
        itemsU).2.total_items = itemsU.length ∧
      (handle_bulk_update fk_fields validateU saveU reprOfU dumpsU user db
          itemsU).2.success_count +
        (handle_bulk_update fk_fields validateU saveU reprOfU dumpsU user db
          itemsU).2.error_count = itemsU.length ∧
      (∀ i0, i0 < itemsU.length →
        (handle_bulk_update fk_fields validateU saveU reprOfU dumpsU user db
            itemsU).2.results.success.countP (fun e => e.index == i0) +
          (handle_bulk_update fk_fields validateU saveU reprOfU dumpsU user db
            itemsU).2.results.errors.countP (fun e => e.index == i0) = 1) ∧
      List.Pairwise (· < ·)
        ((handle_bulk_update fk_fields validateU saveU reprOfU dumpsU user db
          itemsU).2.results.success.map SuccessEntry.index) ∧
      List.Pairwise (· < ·)
        ((handle_bulk_update fk_fields validateU saveU reprOfU dumpsU user db
          itemsU).2.results.errors.map ErrorEntry.index) ∧
      (∀ (db0 : DB) (i : Nat) (a : UpdateItem),
        ((bulkUpdateStep fk_fields validateU saveU reprOfU dumpsU user db0 i a).2).isOk
            = false →
        (bulkUpdateStep fk_fields validateU saveU reprOfU dumpsU user db0 i a).1 = db0) ∧
      (handle_bulk_update fk_fields validateU saveU reprOfU dumpsU user db
          (lU1 ++ badU :: lU2)).1 =
        (handle_bulk_update fk_fields validateU saveU reprOfU dumpsU user db
          (lU1 ++ lU2)).1) ∧
    ((handle_bulk_delete deleteFn reprOfD user db itemsD).2.total_items = itemsD.length ∧
      (handle_bulk_delete deleteFn reprOfD user db itemsD).2.success_count +
        (handle_bulk_delete deleteFn reprOfD user db itemsD).2.error_count
        = itemsD.length ∧
      (∀ i0, i0 < itemsD.length →
        (handle_bulk_delete deleteFn reprOfD user db
            itemsD).2.results.success.countP (fun e => e.index == i0) +
          (handle_bulk_delete deleteFn reprOfD user db
            itemsD).2.results.errors.countP (fun e => e.index == i0) = 1) ∧
      List.Pairwise (· < ·)
        ((handle_bulk_delete deleteFn reprOfD user db
          itemsD).2.results.success.map SuccessEntry.index) ∧
      List.Pairwise (· < ·)
        ((handle_bulk_delete deleteFn reprOfD user db
          itemsD).2.results.errors.map ErrorEntry.index) ∧
      (∀ (db0 : DB) (i : Nat) (a : Nat),
        ((bulkDeleteStep deleteFn reprOfD user db0 i a).2).isOk = false →
        (bulkDeleteStep deleteFn reprOfD user db0 i a).1 = db0) ∧
      (handle_bulk_delete deleteFn reprOfD user db (lD1 ++ badD :: lD2)).1 =
        (handle_bulk_delete deleteFn reprOfD user db (lD1 ++ lD2)).1) := by
  have hC := bulk_response_invariants (bulkCreateStep fk_fields validateC saveC reprOfC user)
    (fun db0 i a => bulkCreateStep_index fk_fields validateC saveC reprOfC user db0 i a)
    "create" db itemsC
  have hU := bulk_response_invariants
    (bulkUpdateStep fk_fields validateU saveU reprOfU dumpsU user)
    (fun db0 i a => bulkUpdateStep_index fk_fields validateU saveU reprOfU dumpsU user db0 i a)
    "update" db itemsU
  have hD := bulk_response_invariants (bulkDeleteStep deleteFn reprOfD user)
    (fun db0 i a => bulkDeleteStep_index deleteFn reprOfD user db0 i a)
    "delete" db itemsD
  refine ⟨⟨hC.1, hC.2.1, hC.2.2.1, hC.2.2.2.1, hC.2.2.2.2,
      fun db0 i a h => bulkCreateStep_rollback fk_fields validateC saveC reprOfC user db0 i a h,
      ?_⟩,
    ⟨hU.1, hU.2.1, hU.2.2.1, hU.2.2.2.1, hU.2.2.2.2,
      fun db0 i a h => bulkUpdateStep_rollback fk_fields validateU saveU reprOfU dumpsU
        user db0 i a h,
      ?_⟩,
    ⟨hD.1, hD.2.1, hD.2.2.1, hD.2.2.2.1, hD.2.2.2.2,
      fun db0 i a h => bulkDeleteStep_rollback deleteFn reprOfD user db0 i a h,
      ?_⟩⟩
  · show (bulkLoop (bulkCreateStep fk_fields validateC saveC reprOfC user) db 0
        (lC1 ++ badC :: lC2)).1 =
      (bulkLoop (bulkCreateStep fk_fields validateC saveC reprOfC user) db 0
        (lC1 ++ lC2)).1
    exact bulkLoop_skip _
      (fun db0 i j a => bulkCreateStep_db_indep fk_fields validateC saveC reprOfC user db0 i j a)
      db lC1 badC lC2
      (bulkCreateStep_rollback fk_fields validateC saveC reprOfC user _ _ _ hbadC)
  · show (bulkLoop (bulkUpdateStep fk_fields validateU saveU reprOfU dumpsU user) db 0
        (lU1 ++ badU :: lU2)).1 =
      (bulkLoop (bulkUpdateStep fk_fields validateU saveU reprOfU dumpsU user) db 0
        (lU1 ++ lU2)).1
    exact bulkLoop_skip _
      (fun db0 i j a => bulkUpdateStep_db_indep fk_fields validateU saveU reprOfU dumpsU
        user db0 i j a)
      db lU1 badU lU2
      (bulkUpdateStep_rollback fk_fields validateU saveU reprOfU dumpsU user _ _ _ hbadU)
  · show (bulkLoop (bulkDeleteStep deleteFn reprOfD user) db 0 (lD1 ++ badD :: lD2)).1 =
      (bulkLoop (bulkDeleteStep deleteFn reprOfD user) db 0 (lD1 ++ lD2)).1
    exact bulkLoop_skip _
      (fun db0 i j a => bulkDeleteStep_db_indep deleteFn reprOfD user db0 i j a)
      db lD1 badD lD2
      (bulkDeleteStep_rollback deleteFn reprOfD user _ _ _ hbadD)

/-- Claim C1 witness: a concrete singleton batch for each handler, with a
failing item for the skip property of each. -/
theorem C1_witness :
    ((handle_bulk_create authorFkFields (fun _ => false)
        (fun _ _ => Except.error "e") (fun _ => "") none emptyDB
        [[("a", Value.vNull)]]).2.success_count +
      (handle_bulk_create authorFkFields (fun _ => false)
        (fun _ _ => Except.error "e") (fun _ => "") none emptyDB
        [[("a", Value.vNull)]]).2.error_count = 1) ∧
    (handle_bulk_create authorFkFields (fun _ => false)
        (fun _ _ => Except.error "e") (fun _ => "") none emptyDB
        (([] : List Data) ++ [("a", Value.vNull)] :: [])).1 =
      (handle_bulk_create authorFkFields (fun _ => false)
        (fun _ _ => Except.error "e") (fun _ => "") none emptyDB
        (([] : List Data) ++ [])).1 ∧
    (handle_bulk_delete (fun d _ => Except.ok d) (fun _ => "") none emptyDB
        (([5] : List Nat) ++ 6 :: [])).1 =
      (handle_bulk_delete (fun d _ => Except.ok d) (fun _ => "") none emptyDB
        (([5] : List Nat) ++ [])).1 := by
  have h := C1_bulk_aggregate_invariants authorFkFields (fun _ => false)
    (fun _ _ => Except.error "e") (fun _ => "")
    (fun _ => true) (fun _ _ _ => Except.error "e") (fun _ => "") (fun _ => "")
    (fun d _ => Except.ok d) (fun _ => "")
    none emptyDB
    [[("a", Value.vNull)]] [{ id := none, data := [] }] [5]
    [] [("a", Value.vNull)] []
    [] { id := none, data := [] } []
    [5] 6 []
    (by decide) (by decide) (by decide)
  exact ⟨h.1.2.1, h.1.2.2.2.2.2.2, h.2.2.2.2.2.2.2.2⟩

/-! ### Dict invariants and idempotence of foreign-key normalization -/

/-- Keys pairwise distinct: the invariant every Python dict satisfies. -/
def DictInv (d : Data) : Prop :=
  List.Pairwise (fun (a b : String × Value) => a.1 ≠ b.1) d

theorem mem_dictSet (d : Data) (k : String) (v : Value) (kv : String × Value)
    (h : kv ∈ dictSet d k v) : kv = (k, v) ∨ kv ∈ d := by
  unfold dictSet at h
  split at h
  · obtain ⟨kv0, hkv0, heq⟩ := List.mem_map.mp h
    by_cases h0 : (kv0.1 == k) = true
    · rw [if_pos h0] at heq
      exact Or.inl heq.symm
    · rw [if_neg h0] at heq
      exact Or.inr (heq ▸ hkv0)
  · rcases List.mem_append.mp h with h1 | h1
    · exact Or.inr h1
    · simp only [List.mem_singleton] at h1
      exact Or.inl h1

theorem dictSet_overwrite_fst (k : String) (v : Value) (kv : String × Value) :
    ((if kv.1 == k then (k, v) else kv) : String × Value).1 = kv.1 := by
  split
  · rename_i h
    have : kv.1 = k := by simpa using h
    simp [this]
  · rfl

theorem dictInv_dictSet (d : Data) (k : String) (v : Value) (h : DictInv d) :
    DictInv (dictSet d k v) := by
  unfold dictSet
  split
  · refine List.Pairwise.map _ ?_ h
    intro a b hab
    rw [dictSet_overwrite_fst k v a, dictSet_overwrite_fst k v b]
    exact hab
  · rename_i hno
    show List.Pairwise (fun (a b : String × Value) => a.1 ≠ b.1) (d ++ [(k, v)])
    rw [List.pairwise_append]
    refine ⟨h, List.pairwise_singleton _ _, ?_⟩
    intro a ha b hb
    simp only [List.mem_singleton] at hb
    subst hb
    intro hak
    apply hno
    simp only [dictHas, List.any_eq_true]
    exact ⟨a, ha, by simp [hak]⟩

theorem dictSet_append_of_not_has (d : Data) (k : String) (v : Value)
    (h : dictHas d k = false) : dictSet d k v = d ++ [(k, v)] := by
  unfold dictSet
  rw [if_neg (by simp [h])]

theorem fold_dictSet_rebuild (d : Data) (acc : Data) (h : DictInv (acc ++ d)) :
    d.foldl (fun acc kv => dictSet acc kv.1 kv.2) acc = acc ++ d := by
  induction d generalizing acc with
  | nil => simp
  | cons kv rest ih =>
    have hsep := (List.pairwise_append.mp h).2.2
    have hno : dictHas acc kv.1 = false := by
      by_contra hc
      simp only [Bool.not_eq_false, dictHas, List.any_eq_true] at hc
      obtain ⟨a, ha, hak⟩ := hc
      have := hsep a ha kv (List.mem_cons_self kv rest)
      exact this (by simpa using hak)
    simp only [List.foldl_cons]
    rw [dictSet_append_of_not_has acc kv.1 kv.2 hno]
    have hre : (acc ++ [(kv.1, kv.2)]) ++ rest = acc ++ kv :: rest := by
      rw [List.append_assoc]
      rfl
    have h2 : DictInv ((acc ++ [(kv.1, kv.2)]) ++ rest) := by
      rw [hre]
      exact h
    have := ih (acc ++ [(kv.1, kv.2)]) h2
    rw [this, List.append_assoc]
    rfl

theorem lookupStr_some_mem (m : List (String × String)) (k n : String)
    (h : lookupStr m k = some n) : (k, n) ∈ m := by
  unfold lookupStr at h
  obtain ⟨kv, hfind, hsnd⟩ := Option.map_eq_some'.mp h
  have hmem := List.mem_of_find?_eq_some hfind
  have hfst := List.find?_some hfind
  have h1 : kv.1 = k := by simpa using hfst
  have : kv = (k, n) := by
    cases kv
    simp_all
  rwa [this] at hmem

theorem normalize_keys_not_fk (fkMap : List (String × String))
    (hfk : ∀ p ∈ fkMap, lookupStr fkMap p.2 = none) (d : Data) :
    ∀ kv ∈ normalize_fk_fields fkMap d, lookupStr fkMap kv.1 = none := by
  unfold normalize_fk_fields
  suffices hgen : ∀ (acc : Data), (∀ kv ∈ acc, lookupStr fkMap kv.1 = none) →
      ∀ kv ∈ d.foldl
        (fun acc kv =>
          match lookupStr fkMap kv.1 with
          | some nm => dictSet acc nm kv.2
          | none => dictSet acc kv.1 kv.2) acc,
      lookupStr fkMap kv.1 = none by
    exact hgen [] (by intro kv h; cases h)
  induction d with
  | nil =>
    intro acc hacc kv hkv
    exact hacc kv hkv
  | cons kv0 rest ih =>
    intro acc hacc kv hkv
    simp only [List.foldl_cons] at hkv
    refine ih _ ?_ kv hkv
    intro kv1 hkv1
    cases hl : lookupStr fkMap kv0.1 with
    | some nm =>
      rw [hl] at hkv1
      rcases mem_dictSet _ _ _ _ hkv1 with he | hm
      · subst he
        exact hfk (kv0.1, nm) (lookupStr_some_mem fkMap kv0.1 nm hl)
      · exact hacc kv1 hm
    | none =>
      rw [hl] at hkv1
      rcases mem_dictSet _ _ _ _ hkv1 with he | hm
      · subst he
        exact hl
      · exact hacc kv1 hm

theorem dictInv_normalize (fkMap : List (String × String)) (d : Data) :
    DictInv (normalize_fk_fields fkMap d) := by
  unfold normalize_fk_fields
  suffices hgen : ∀ (acc : Data), DictInv acc →
      DictInv (d.foldl
        (fun acc kv =>
          match lookupStr fkMap kv.1 with
          | some nm => dictSet acc nm kv.2
          | none => dictSet acc kv.1 kv.2) acc) by
    exact hgen [] List.Pairwise.nil
  induction d with
  | nil => intro acc hacc; exact hacc
  | cons kv0 rest ih =>
    intro acc hacc
    simp only [List.foldl_cons]
    refine ih _ ?_
    cases hl : lookupStr fkMap kv0.1 with
    | some nm => exact dictInv_dictSet acc nm kv0.2 hacc
    | none => exact dictInv_dictSet acc kv0.1 kv0.2 hacc

theorem fold_normalize_of_keys_not_fk (fkMap : List (String × String)) (d : Data)
    (hd : ∀ kv ∈ d, lookupStr fkMap kv.1 = none) (acc : Data) :
    d.foldl
      (fun acc kv =>
        match lookupStr fkMap kv.1 with
        | some nm => dictSet acc nm kv.2
        | none => dictSet acc kv.1 kv.2) acc =
    d.foldl (fun acc kv => dictSet acc kv.1 kv.2) acc := by
  induction d generalizing acc with
  | nil => rfl
  | cons kv0 rest ih =>
    simp only [List.foldl_cons]
    rw [hd kv0 (List.mem_cons_self kv0 rest)]
    exact ih (fun kv h => hd kv (List.mem_cons_of_mem kv0 h)) _

/-- Normalization is idempotent: the output of normalize_fk_fields mentions
only logical field names (never attnames), so running it again changes
nothing. -/
theorem normalize_fk_fields_idem (fkMap : List (String × String))
    (hfk : ∀ p ∈ fkMap, lookupStr fkMap p.2 = none) (d : Data) :
    normalize_fk_fields fkMap (normalize_fk_fields fkMap d) =
      normalize_fk_fields fkMap d := by
  have hkeys := normalize_keys_not_fk fkMap hfk d
  have hinv := dictInv_normalize fkMap d
  show (normalize_fk_fields fkMap d).foldl
      (fun acc kv =>
        match lookupStr fkMap kv.1 with
        | some nm => dictSet acc nm kv.2
        | none => dictSet acc kv.1 kv.2) [] = _
  rw [fold_normalize_of_keys_not_fk fkMap _ hkeys []]
  have := fold_dictSet_rebuild (normalize_fk_fields fkMap d) []
    (by simpa [DictInv] using hinv)
  rw [this]
  rfl

theorem bulkCreateStep_normalized (fkMap : List (String × String))
    (hfk : ∀ p ∈ fkMap, lookupStr fkMap p.2 = none) (validate : Data → Bool)
    (save : DB → Data → Except String (DB × Row)) (reprOf : Row → String)
    (user : Option Nat) (db : DB) (i : Nat) (item : Data) :
    bulkCreateStep fkMap validate save reprOf user db i
        (normalize_fk_fields fkMap item) =
      bulkCreateStep fkMap validate save reprOf user db i item := by
  unfold bulkCreateStep
  rw [normalize_fk_fields_idem fkMap hfk item]

theorem bulkLoop_congr_map {α : Type} (step : DB → Nat → α → DB × ItemOutcome)
    (g : α → α) (hg : ∀ db i a, step db i (g a) = step db i a)
    (db : DB) (i : Nat) (l : List α) :
    bulkLoop step db i (l.map g) = bulkLoop step db i l := by
  induction l generalizing db i with
  | nil => rfl
  | cons a rest ih =>
    simp only [List.map_cons, bulkLoop, hg, ih]

/-- Claim C9 (amended): the bulk create handler normalizes the column-style
foreign-key attname to the logical relation name, and it behaves exactly
as if the logical names had been supplied: the batch of normalized items
produces the same final store and the same response. -/
theorem C9_amended_bulk_create_normalizes (fkMap : List (String × String))
    (validate : Data → Bool) (save : DB → Data → Except String (DB × Row))
    (reprOf : Row → String) (user : Option Nat) (db : DB) (items : List Data)
    (a n : String) (v : Value)
    (hfk : ∀ p ∈ fkMap, lookupStr fkMap p.2 = none)
    (han : lookupStr fkMap a = some n) :
    normalize_fk_fields fkMap [(a, v)] = [(n, v)] ∧
    handle_bulk_create fkMap validate save reprOf user db
        (items.map (normalize_fk_fields fkMap)) =
      handle_bulk_create fkMap validate save reprOf user db items := by
  constructor
  · show [(a, v)].foldl
        (fun acc kv =>
          match lookupStr fkMap kv.1 with
          | some nm => dictSet acc nm kv.2
          | none => dictSet acc kv.1 kv.2) [] = [(n, v)]
    simp only [List.foldl_cons, List.foldl_nil, han]
    rfl
  · unfold handle_bulk_create
    rw [bulkLoop_congr_map _ _
      (fun db0 i item => bulkCreateStep_normalized fkMap hfk validate save reprOf
        user db0 i item) db 0 items]
    rw [List.length_map]

/-- Claim C9 (amended) witness at the concrete author foreign key. -/
theorem C9_amended_witness :
    normalize_fk_fields authorFkFields [("author_id", Value.vInt 5)] =
      [("author", Value.vInt 5)] ∧
    handle_bulk_create authorFkFields (fun _ => true) (fun _ _ => Except.error "e")
        (fun _ => "") none emptyDB
        ([[("author_id", Value.vInt 5)]].map (normalize_fk_fields authorFkFields)) =
      handle_bulk_create authorFkFields (fun _ => true) (fun _ _ => Except.error "e")
        (fun _ => "") none emptyDB [[("author_id", Value.vInt 5)]] :=
  C9_amended_bulk_create_normalizes authorFkFields (fun _ => true)
    (fun _ _ => Except.error "e") (fun _ => "") none emptyDB
    [[("author_id", Value.vInt 5)]] "author_id" "author" (Value.vInt 5)
    (by decide) (by decide)

end DjangoAdminMcp
